import Mathlib

/-!
Verification development for the Time-Tracking repository.

The persistence layer (src/backend/pg-store.js, src/backend/user-store.js),
the HTTP login flow (src/backend/server.js, src/frontend/src/App.js), the
client timer engine (the TimeTracking component) and the ERP pagination
(src/frontend/src/api-fetcher.js) are embedded shallowly below.  Store
timestamps are integers (seconds since epoch); client timestamps are natural
numbers (milliseconds).  SQL result sets become Lean lists; the dynamic
column introspection of the JS code is modelled with the full live schema,
since every claim concerns a fully migrated deployment.
-/

namespace TimeTracking

/-- A time-entry row, mirroring the column set created by
`PgStore.ensureTable` in src/backend/pg-store.js.  GPS location JSON payloads
are kept as plain JSON strings. -/
structure Row where
  id : Nat
  job_no : String
  job_name : String
  employee_code : String
  employee_name : Option String
  account_no : Option String
  account_name : Option String
  start_time : Int
  end_time : Option Int
  total_seconds : Option Int
  comment : Option String
  status : String
  spire_status : String
  start_location : Option String
  end_location : Option String
  created_at : Int
  updated_at : Int
deriving DecidableEq, Repr

/-- The store state: the `time_entries_jobs` table plus the id generator
(UUIDs are abstracted to sequentially issued naturals). -/
structure Store where
  rows : List Row
  nextId : Nat
deriving DecidableEq, Repr

def emptyStore : Store := { rows := [], nextId := 0 }

/-- The argument of `createEntry`: the `entry` object.  A `none` field is a
JS `undefined` field, which `createEntry` skips so that the column default
applies. -/
structure NewEntry where
  job_no : String
  job_name : String
  employee_code : String
  employee_name : Option String := none
  account_no : Option String := none
  account_name : Option String := none
  start_time : Option Int := none
  end_time : Option Int := none
  total_seconds : Option Int := none
  comment : Option String := none
  status : Option String := none
  spire_status : Option String := none
  start_location : Option String := none
  end_location : Option String := none
deriving DecidableEq, Repr

/-- The test of createEntry: status absent or equal to the string active. -/
def isActiveTimer (e : NewEntry) : Bool :=
  e.status.isNone || e.status == some "active"

/-- The JS `String.prototype.trim`: strip leading and trailing whitespace
(written with structural recursion over the character list so that concrete
instances evaluate inside the kernel). -/
def jsTrim (s : String) : String :=
  ⟨((s.data.dropWhile Char.isWhitespace).reverse.dropWhile
      Char.isWhitespace).reverse⟩

/-- The duplicate query of `createEntry`:
`WHERE job_no=$1 AND employee_code=$2 AND end_time IS NULL` with the
parameters being the trimmed job_no and trimmed employee_code of the entry
(the JS falls back to the empty string when the field is absent).
Note that the stored values are compared against the trimmed input. -/
def dupExists (s : Store) (e : NewEntry) : Bool :=
  s.rows.any fun r =>
    r.job_no == jsTrim e.job_no && r.employee_code == jsTrim e.employee_code &&
      r.end_time == none

/-- The row inserted by `createEntry` for a full schema: present fields are
inserted, absent fields fall back to the defaults: status falls back to
active in the field mappings, spire_status to new, the locations to the
empty JSON array, start_time and the bookkeeping stamps to now. -/
def insertedRow (s : Store) (e : NewEntry) (now : Int) : Row :=
  { id := s.nextId
    job_no := e.job_no
    job_name := e.job_name
    employee_code := e.employee_code
    employee_name := e.employee_name
    account_no := e.account_no
    account_name := e.account_name
    start_time := e.start_time.getD now
    end_time := e.end_time
    total_seconds := e.total_seconds
    comment := e.comment
    status := e.status.getD "active"
    spire_status := e.spire_status.getD "new"
    start_location := some (e.start_location.getD "[]")
    end_location := some (e.end_location.getD "[]")
    created_at := now
    updated_at := now }

inductive CreateResult
  | ok (id : Nat)
  | conflict (msg : String)
deriving DecidableEq, Repr

/-- `PgStore.createEntry`: reject an active-status insert when the duplicate
query finds a row, otherwise insert and return the generated id. -/
def createEntry (s : Store) (e : NewEntry) (now : Int) : CreateResult × Store :=
  if isActiveTimer e && dupExists s e then
    (.conflict "An active timer already exists for this job and employee combination", s)
  else
    (.ok s.nextId, { rows := s.rows ++ [insertedRow s e now], nextId := s.nextId + 1 })

/-- The JS truthiness test `if (employeeCode)`: ownership scoping is applied
only for a non-null, non-empty employee code. -/
def ownOk (emp : Option String) (r : Row) : Bool :=
  match emp with
  | none => true
  | some e => e == "" || r.employee_code == e

/-- The WHERE clause of `stopEntry`:
`id = $1 AND end_time IS NULL` plus optional ownership. -/
def stopMatches (id : Nat) (emp : Option String) (r : Row) : Bool :=
  r.id == id && r.end_time == none && ownOk emp r

/-- The SET clause of `stopEntry`: end_time becomes now, total_seconds
becomes GREATEST of zero and the whole seconds from start_time to now,
status becomes the string Completed, updated_at becomes now. -/
def stopRow (now : Int) (r : Row) : Row :=
  { r with end_time := some now
           total_seconds := some (max 0 (now - r.start_time))
           status := "Completed"
           updated_at := now }

inductive RowResult
  | ok (entry : Row)
  | err (msg : String)
deriving DecidableEq, Repr

/-- `PgStore.stopEntry`: UPDATE ... RETURNING *; zero matched rows yield the
not-found error, otherwise every matching row is updated and the first is
returned. -/
def stopEntry (s : Store) (id : Nat) (emp : Option String) (now : Int) :
    RowResult × Store :=
  match s.rows.find? (stopMatches id emp) with
  | none => (.err "Entry not found or already stopped", s)
  | some r =>
      (.ok (stopRow now r),
       { s with rows := s.rows.map fun q =>
           if stopMatches id emp q then stopRow now q else q })

/-- Column names of the time-entries table, for the dynamic update path. -/
inductive Field
  | id | job_no | job_name | employee_code | employee_name
  | account_no | account_name | start_time | end_time | total_seconds
  | comment | status | spire_status | start_location | end_location
  | created_at | updated_at
deriving DecidableEq, Repr

/-- A JSON value arriving in an update payload. -/
inductive Value
  | str (s : String)
  | int (n : Int)
  | null
deriving DecidableEq, Repr

/-- The `allowedFields` whitelist of `PgStore.updateEntry` (verbatim order). -/
def allowedFields : List Field :=
  [.job_no, .job_name, .employee_code, .employee_name, .account_no,
   .account_name, .comment, .spire_status, .status, .total_seconds,
   .start_time, .start_location, .end_location]

/-- Assign one column of a row from a payload value, with the type the
column carries; a value of the wrong shape for the column leaves it
unchanged (the SQL layer would reject it). -/
def setField (r : Row) : Field → Value → Row
  | .job_no, .str v => { r with job_no := v }
  | .job_name, .str v => { r with job_name := v }
  | .employee_code, .str v => { r with employee_code := v }
  | .employee_name, .str v => { r with employee_name := some v }
  | .employee_name, .null => { r with employee_name := none }
  | .account_no, .str v => { r with account_no := some v }
  | .account_no, .null => { r with account_no := none }
  | .account_name, .str v => { r with account_name := some v }
  | .account_name, .null => { r with account_name := none }
  | .start_time, .int v => { r with start_time := v }
  | .end_time, .int v => { r with end_time := some v }
  | .end_time, .null => { r with end_time := none }
  | .total_seconds, .int v => { r with total_seconds := some v }
  | .total_seconds, .null => { r with total_seconds := none }
  | .comment, .str v => { r with comment := some v }
  | .comment, .null => { r with comment := none }
  | .status, .str v => { r with status := v }
  | .spire_status, .str v => { r with spire_status := v }
  | .start_location, .str v => { r with start_location := some v }
  | .start_location, .null => { r with start_location := none }
  | .end_location, .str v => { r with end_location := some v }
  | .end_location, .null => { r with end_location := none }
  | .id, _ => r
  | .created_at, _ => r
  | .updated_at, _ => r
  | _, _ => r

/-- Read one column of a row as a payload-level value. -/
def getField (r : Row) : Field → Value
  | .id => .int r.id
  | .job_no => .str r.job_no
  | .job_name => .str r.job_name
  | .employee_code => .str r.employee_code
  | .employee_name => (r.employee_name.map .str).getD .null
  | .account_no => (r.account_no.map .str).getD .null
  | .account_name => (r.account_name.map .str).getD .null
  | .start_time => .int r.start_time
  | .end_time => (r.end_time.map .int).getD .null
  | .total_seconds => (r.total_seconds.map .int).getD .null
  | .comment => (r.comment.map .str).getD .null
  | .status => .str r.status
  | .spire_status => .str r.spire_status
  | .start_location => (r.start_location.map .str).getD .null
  | .end_location => (r.end_location.map .str).getD .null
  | .created_at => .int r.created_at
  | .updated_at => .int r.updated_at

/-- The WHERE clause of `updateEntry`: `id = $n` plus optional ownership. -/
def updMatches (id : Nat) (emp : Option String) (r : Row) : Bool :=
  r.id == id && ownOk emp r

/-- Apply the retained key/value pairs in payload order, as the generated
`SET k1 = $1, k2 = $2, ...` does. -/
def applyUpdates (r : Row) (us : List (Field × Value)) : Row :=
  us.foldl (fun acc kv => setField acc kv.1 kv.2) r

/-- `PgStore.updateEntry`: keep the payload entries whose key is in
`allowedFields` (an entry that is JS `undefined` never appears in the
payload list), reject an empty retained set, update the matching row, touch
`updated_at`, and return the updated row. -/
def updateEntry (s : Store) (id : Nat) (us : List (Field × Value))
    (emp : Option String) (now : Int) : RowResult × Store :=
  let retained := us.filter fun kv => allowedFields.contains kv.1
  if retained.isEmpty then
    (.err "No valid fields to update", s)
  else
    match s.rows.find? (updMatches id emp) with
    | none => (.err "Entry not found", s)
    | some r =>
        (.ok { applyUpdates r retained with updated_at := now },
         { s with rows := s.rows.map fun q =>
             if updMatches id emp q then
               { applyUpdates q retained with updated_at := now }
             else q })

/-- Insertion sort by descending start_time, for `ORDER BY start_time DESC`. -/
def insertByStartDesc (r : Row) : List Row → List Row
  | [] => [r]
  | q :: qs =>
      if q.start_time ≤ r.start_time then r :: q :: qs
      else q :: insertByStartDesc r qs

def sortByStartDesc : List Row → List Row
  | [] => []
  | r :: rs => insertByStartDesc r (sortByStartDesc rs)

/-- `PgStore.getActiveEntries`: `WHERE end_time IS NULL` with optional
employee filter, `ORDER BY start_time DESC`. -/
def getActiveEntries (s : Store) (emp : Option String) : List Row :=
  sortByStartDesc (s.rows.filter fun r => r.end_time == none && ownOk emp r)

/-! ## Serial operation sequences (claim C2)

The operations the invariant quantifies over: `create`, `stop`, and the two
update shapes the client issues through `updateTimer` in the TimeTracking
component: pause sends total_seconds, start_time and the status paused;
resume sends the status active and start_time. -/

inductive Op
  | create (e : NewEntry) (now : Int)
  | stop (id : Nat) (emp : Option String) (now : Int)
  | pause (id : Nat) (secs : Int) (now : Int)
  | resume (id : Nat) (now : Int)
deriving Repr

def applyOp (s : Store) : Op → Store
  | .create e now => (createEntry s e now).2
  | .stop id emp now => (stopEntry s id emp now).2
  | .pause id secs now =>
      (updateEntry s id
        [(.total_seconds, .int secs), (.start_time, .int now), (.status, .str "paused")]
        none now).2
  | .resume id now =>
      (updateEntry s id [(.status, .str "active"), (.start_time, .int now)] none now).2

def runOps (ops : List Op) : Store := ops.foldl applyOp emptyStore

/-- Two distinct rows both count as duplicate active timers when both have
status active, a null end_time, and the same (job_no, employee_code). -/
def dupActivePair (r1 r2 : Row) : Prop :=
  r1.status = "active" ∧ r1.end_time = none ∧
  r2.status = "active" ∧ r2.end_time = none ∧
  r1.employee_code = r2.employee_code ∧ r1.job_no = r2.job_no

instance : ∀ r1 r2 : Row, Decidable (dupActivePair r1 r2) := by
  intro r1 r2; unfold dupActivePair; infer_instance

/-- The one-active-timer invariant over the whole table. -/
def noDupActive (s : Store) : Prop :=
  s.rows.Pairwise fun r1 r2 => ¬ dupActivePair r1 r2

/-! ## Client timer engine (claim C4)

From the TimeTracking component: the local timer keeps the stored
accumulated whole seconds and the epoch of the last resume, and the
per-second tick recomputes
`elapsedTime = total_seconds * 1000 + (Date.now() - startTime)`.
Pausing writes `total_seconds = Math.floor(elapsedTime / 1000)` and
`start_time = now`; resuming writes `start_time = now` and leaves
`total_seconds` untouched.  Times are milliseconds. -/

structure TimerState where
  total_seconds : Nat
  startTime : Nat
deriving DecidableEq, Repr

def elapsedMs (st : TimerState) (now : Nat) : Nat :=
  st.total_seconds * 1000 + (now - st.startTime)

def pauseTimer (st : TimerState) (now : Nat) : TimerState :=
  { total_seconds := elapsedMs st now / 1000, startTime := now }

def resumeTimer (st : TimerState) (now : Nat) : TimerState :=
  { st with startTime := now }

/-- Run a list of (pause instant, resume instant) cycles. -/
def runCycles (st : TimerState) : List (Nat × Nat) → TimerState
  | [] => st
  | (p, r) :: rest => runCycles (resumeTimer (pauseTimer st p) r) rest

/-- True wall-clock milliseconds spent running: the timer runs from its
last (re)start to each pause, and from the last resume to the read. -/
def trueActiveMs (t0 : Nat) : List (Nat × Nat) → Nat → Nat
  | [], t => t - t0
  | (p, r) :: rest, t => (p - t0) + trueActiveMs r rest t

/-- The instants are in chronological order and the read comes last. -/
def Chrono (t0 : Nat) : List (Nat × Nat) → Nat → Prop
  | [], t => t0 ≤ t
  | (p, r) :: rest, t => t0 ≤ p ∧ p ≤ r ∧ Chrono r rest t

instance chronoDec : ∀ t0 cs t, Decidable (Chrono t0 cs t)
  | _, [], _ => by unfold Chrono; infer_instance
  | t0, (p, r) :: rest, t => by
      unfold Chrono
      have := chronoDec r rest t
      infer_instance

/-! ## Schema Manager (claim C6)

The DDL effects of `PgStore.ensureTable` and `UserStore.ensureTable` on the
database catalog, modelled as: existence flag, whether the id column is
UUID-typed, the column list, the index list, and the uuid extension flag. -/

structure Schema where
  tableExists : Bool
  idIsUuid : Bool
  columns : List String
  indexes : List String
  uuidExt : Bool
deriving DecidableEq, Repr

/-- Column set of the freshly created time-entries table. -/
def teFullColumns : List String :=
  ["id", "job_no", "job_name", "employee_code", "employee_name",
   "account_no", "account_name", "start_time", "end_time", "total_seconds",
   "comment", "status", "spire_status", "start_location", "end_location",
   "created_at", "updated_at"]

/-- `ALTER TABLE ADD COLUMN` guarded by an information_schema lookup. -/
def addColIfMissing (c : String) (s : Schema) : Schema :=
  if s.columns.contains c then s else { s with columns := s.columns ++ [c] }

/-- `CREATE INDEX IF NOT EXISTS`. -/
def addIndexIfMissing (i : String) (s : Schema) : Schema :=
  if s.indexes.contains i then s else { s with indexes := s.indexes ++ [i] }

/-- The non-atomic backup/drop/recreate/restore migration applied when the
id column is not UUID-typed: afterwards the id column is UUID and the other
columns are carried over unchanged. -/
def migrateToUuid (s : Schema) : Schema :=
  { s with idIsUuid := true }

/-- `PgStore.ensureTable` for table `t`: uuid extension, create-if-absent
with the full column set, uuid migration, the nine feature-column checks,
the four unconditional indexes, and the employee_code index guarded on the
column being present.  Returns the `{success: true}` flag. -/
def ensureTable (t : String) (s : Schema) : Schema × Bool :=
  let s := { s with uuidExt := true }
  let s :=
    if !s.tableExists then
      { s with tableExists := true, idIsUuid := true, columns := teFullColumns }
    else
      let s := if !s.idIsUuid then migrateToUuid s else s
      let s := addColIfMissing "spire_status" s
      let s := addColIfMissing "employee_code" s
      let s := addColIfMissing "employee_name" s
      let s := addColIfMissing "start_location" s
      let s := addColIfMissing "end_location" s
      let s := addColIfMissing "total_seconds" s
      let s := addColIfMissing "comment" s
      let s := addColIfMissing "account_no" s
      let s := addColIfMissing "account_name" s
      s
  let s := addIndexIfMissing ("idx_" ++ t ++ "_job_no") s
  let s := addIndexIfMissing ("idx_" ++ t ++ "_status") s
  let s := addIndexIfMissing ("idx_" ++ t ++ "_start_time") s
  let s := addIndexIfMissing ("idx_" ++ t ++ "_spire_status") s
  let s :=
    if s.columns.contains "employee_code" then
      addIndexIfMissing ("idx_" ++ t ++ "_employee_code") s
    else s
  (s, true)

/-- Column set of the freshly created users table. -/
def userFullColumns : List String :=
  ["id", "emp_code", "emp_name", "password", "verified", "favorites",
   "created", "updated"]

/-- `UserStore.ensureTable` for table `t`: uuid extension,
`CREATE TABLE IF NOT EXISTS`, uuid migration, the emp_name and favorites
column checks, and the emp_code and verified indexes. -/
def userEnsureTable (t : String) (s : Schema) : Schema × Bool :=
  let s := { s with uuidExt := true }
  let s :=
    if !s.tableExists then
      { s with tableExists := true, idIsUuid := true, columns := userFullColumns }
    else s
  let s := if !s.idIsUuid then migrateToUuid s else s
  let s := addColIfMissing "emp_name" s
  let s := addColIfMissing "favorites" s
  let s := addIndexIfMissing ("idx_" ++ t ++ "_emp_code") s
  let s := addIndexIfMissing ("idx_" ++ t ++ "_verified") s
  (s, true)

/-- A schema is fully migrated for the time-entries table: it exists with a
UUID id, carries every column the feature checks look for, and has every
index `ensureTable` creates. -/
def teSchemaCorrect (t : String) (s : Schema) : Prop :=
  s.tableExists = true ∧ s.idIsUuid = true ∧ s.uuidExt = true ∧
  (∀ c ∈ teFullColumns, s.columns.contains c = true) ∧
  (∀ i ∈ ["idx_" ++ t ++ "_job_no", "idx_" ++ t ++ "_status",
          "idx_" ++ t ++ "_start_time", "idx_" ++ t ++ "_spire_status",
          "idx_" ++ t ++ "_employee_code"], s.indexes.contains i = true)

/-- A schema is fully migrated for the users table. -/
def userSchemaCorrect (t : String) (s : Schema) : Prop :=
  s.tableExists = true ∧ s.idIsUuid = true ∧ s.uuidExt = true ∧
  (∀ c ∈ userFullColumns, s.columns.contains c = true) ∧
  (∀ i ∈ ["idx_" ++ t ++ "_emp_code", "idx_" ++ t ++ "_verified"],
      s.indexes.contains i = true)

instance (t : String) (s : Schema) : Decidable (teSchemaCorrect t s) := by
  unfold teSchemaCorrect; infer_instance

instance (t : String) (s : Schema) : Decidable (userSchemaCorrect t s) := by
  unfold userSchemaCorrect; infer_instance

/-! ## User Store (claims C8, C10)

Rows of the users table, and the query functions of
src/backend/user-store.js.  The sha256 digest of `encodePassword` is kept
as an abstract parameter `hash`; every property proved below holds for any
digest function.  A returned user object is modelled as a record of
optional fields so that the column list of each SELECT (and the JS rest
destructuring that strips the password) is visible in the embedding. -/

structure UserRow where
  id : Nat
  emp_code : String
  emp_name : Option String
  password : String
  verified : Bool
  favorites : String
  created : Int
  updated : Int
deriving DecidableEq, Repr

structure UserDb where
  users : List UserRow
  nextId : Nat
deriving DecidableEq, Repr

/-- A user object as serialized in a query result: a field absent from the
SELECT column list is `none`. -/
structure UserObj where
  id : Option Nat := none
  emp_code : Option String := none
  emp_name : Option String := none
  password : Option String := none
  verified : Option Bool := none
  created : Option Int := none
  updated : Option Int := none
deriving DecidableEq, Repr

/-- `SELECT id, emp_code, emp_name, verified, created, updated` (the
projection used by getUserByEmpcode, checkUserExists, getAllUsers and the
RETURNING list of createUser). -/
def projPublic (r : UserRow) : UserObj :=
  { id := some r.id, emp_code := some r.emp_code, emp_name := r.emp_name,
    verified := some r.verified, created := some r.created,
    updated := some r.updated }

/-- `SELECT id, emp_code, emp_name, password, verified, created, updated`
(the projection used by verifyPassword and verifyUserCredentials before the
password is stripped). -/
def projWithPassword (r : UserRow) : UserObj :=
  { projPublic r with password := some r.password }

/-- The JS rest destructuring that drops the password key from the user
object before it is returned. -/
def stripPassword (u : UserObj) : UserObj :=
  { u with password := none }

/-- `RETURNING id, emp_code, verified, updated` of updatePassword. -/
def projUpdatePassword (r : UserRow) : UserObj :=
  { id := some r.id, emp_code := some r.emp_code,
    verified := some r.verified, updated := some r.updated }

inductive UserResult
  | ok (user : UserObj)
  | err (msg : String)
deriving DecidableEq, Repr

def findUser (db : UserDb) (emp_code : String) : Option UserRow :=
  db.users.find? fun r => r.emp_code == emp_code

/-- `UserStore.createUser` with digest `hash`: validate, insert unverified,
translate the unique-constraint violation on emp_code. -/
def createUser (hash : String → String) (db : UserDb)
    (emp_code : String) (emp_name : Option String) (password : String)
    (now : Int) : UserResult × UserDb :=
  if emp_code == "" || password == "" then
    (.err "Employee code and password are required", db)
  else if db.users.any (fun r => r.emp_code == emp_code) then
    (.err "Account already exists. Please go to login page.", db)
  else
    let r : UserRow :=
      { id := db.nextId, emp_code := emp_code, emp_name := emp_name,
        password := hash password, verified := false, favorites := "[]",
        created := now, updated := now }
    (.ok (projPublic r), { users := db.users ++ [r], nextId := db.nextId + 1 })

/-- `UserStore.getUserByEmpcode`. -/
def getUserByEmpcode (db : UserDb) (emp_code : String) : UserResult :=
  match findUser db emp_code with
  | some r => .ok (projPublic r)
  | none => .err "User not found"

/-- `UserStore.checkUserExists` (same projection, used by the login route
to precede the password check). -/
def checkUserExists (db : UserDb) (emp_code : String) : UserResult :=
  match findUser db emp_code with
  | some r => .ok (projPublic r)
  | none => .err "User not found"

/-- `UserStore.verifyPassword`: fetch the row with its password column,
compare digests, and answer with the password stripped. -/
def verifyPasswordStore (hash : String → String) (db : UserDb)
    (emp_code : String) (password : String) : UserResult :=
  match findUser db emp_code with
  | some r =>
      if hash password == r.password then
        .ok (stripPassword (projWithPassword r))
      else
        .err "Invalid password"
  | none => .err "User not found"

/-- `UserStore.verifyUserCredentials` (kept for backward compatibility,
same body as verifyPassword). -/
def verifyUserCredentials (hash : String → String) (db : UserDb)
    (emp_code : String) (password : String) : UserResult :=
  match findUser db emp_code with
  | some r =>
      if hash password == r.password then
        .ok (stripPassword (projWithPassword r))
      else
        .err "Invalid password"
  | none => .err "User not found"

/-- `UserStore.updatePassword`. -/
def updatePassword (hash : String → String) (db : UserDb)
    (emp_code : String) (newPassword : String) (now : Int) :
    UserResult × UserDb :=
  match findUser db emp_code with
  | some r =>
      let r2 := { r with password := hash newPassword, updated := now }
      (.ok (projUpdatePassword r2),
       { db with users := db.users.map fun q =>
           if q.emp_code == emp_code then
             { q with password := hash newPassword, updated := now }
           else q })
  | none => (.err "User not found", db)

/-- Insertion sort by descending created, for `ORDER BY created DESC`. -/
def insertByCreatedDesc (r : UserRow) : List UserRow → List UserRow
  | [] => [r]
  | q :: qs =>
      if q.created ≤ r.created then r :: q :: qs
      else q :: insertByCreatedDesc r qs

def sortByCreatedDesc : List UserRow → List UserRow
  | [] => []
  | r :: rs => insertByCreatedDesc r (sortByCreatedDesc rs)

/-- `UserStore.getAllUsers`. -/
def getAllUsers (db : UserDb) (limit : Nat) : List UserObj :=
  ((sortByCreatedDesc db.users).take limit).map projPublic

/-! ## Login flow (claim C8)

`POST /api/users/login` from src/backend/server.js composed with the
`login` function of src/frontend/src/App.js.  The JWT is abstracted to a
string derived from the employee code; only its presence matters here. -/

structure ServerLoginResp where
  status : Nat
  success : Bool
  error : Option String := none
  code : Option String := none
  token : Option String := none
  user : Option UserObj := none
deriving DecidableEq, Repr

/-- The login route: missing fields give 400; an unknown employee code
gives 401 USER_NOT_FOUND; a digest mismatch gives 401 INVALID_PASSWORD;
otherwise 200 with a token and the public user object (note: the route
never looks at the verified flag). -/
def serverLogin (hash : String → String) (db : UserDb)
    (emp pw : String) : ServerLoginResp :=
  if emp == "" || pw == "" then
    { status := 400, success := false,
      error := some "Employee code and password are required" }
  else
    match checkUserExists db (jsTrim emp) with
    | .err _ =>
        { status := 401, success := false,
          error := some "User not found. Please go to register.",
          code := some "USER_NOT_FOUND" }
    | .ok _ =>
        match verifyPasswordStore hash db (jsTrim emp) pw with
        | .err _ =>
            { status := 401, success := false,
              error := some "Invalid credentials",
              code := some "INVALID_PASSWORD" }
        | .ok u =>
            { status := 200, success := true,
              token := some ("jwt." ++ (jsTrim emp)),
              user := some { id := u.id, emp_code := u.emp_code,
                             emp_name := u.emp_name, verified := u.verified,
                             created := u.created } }

structure ClientLoginResult where
  success : Bool
  error : Option String := none
  code : Option String := none
deriving DecidableEq, Repr

/-- Client session state after the login attempt: the stored auth token (if
any) and the isAuthenticated flag. -/
structure ClientSession where
  authToken : Option String
  isAuthenticated : Bool
deriving DecidableEq, Repr

/-- The `login` function of App.js applied to the server response: on a
successful response it first checks `data.user.verified` and refuses to
establish a session when the account is unverified. -/
def clientLogin (resp : ServerLoginResp) : ClientLoginResult × ClientSession :=
  if resp.success then
    if (resp.user.bind (·.verified)).getD false = false then
      ({ success := false, error := some "Account not verified" },
       { authToken := none, isAuthenticated := false })
    else
      ({ success := true }, { authToken := resp.token, isAuthenticated := true })
  else if resp.code == some "USER_NOT_FOUND" then
    ({ success := false, error := some "User not found. Please go to register.",
       code := some "USER_NOT_FOUND" },
     { authToken := none, isAuthenticated := false })
  else if resp.code == some "INVALID_PASSWORD" then
    ({ success := false, error := some "Invalid credentials",
       code := some "INVALID_PASSWORD" },
     { authToken := none, isAuthenticated := false })
  else
    ({ success := false, error := some ((resp.error).getD "Login failed") },
     { authToken := none, isAuthenticated := false })

/-- The whole login flow: server route then client handling. -/
def loginFlow (hash : String → String) (db : UserDb) (emp pw : String) :
    ClientLoginResult × ClientSession :=
  clientLogin (serverLogin hash db emp pw)

/-! ## ERP job pagination (claim C9)

`fetchJobs` from src/frontend/src/api-fetcher.js: limit 50, at most 10
pages, total count read from the first page, stop on an empty page, on
reaching the reported total, or on a short page; a CORS-class failure stops
pagination, any other per-page failure advances the offset and continues.
Job records are abstracted to naturals; the external API is a function from
the request offset to a page outcome. -/

inductive PageOutcome
  | ok (records : List Nat) (count : Nat)
  | fail (cors : Bool)

/-- The pagination loop.  `fuel` is the number of loop iterations the
`pageCount < maxPages` guard still allows; `requests` counts issued page
requests.  Returns (accumulated records, reported total, request count). -/
def fetchJobsLoop (api : Nat → PageOutcome) :
    Nat → Nat → Nat → Option Nat → List Nat → Nat →
    List Nat × Option Nat × Nat
  | 0, _, _, totalCount, acc, requests => (acc, totalCount, requests)
  | fuel + 1, offset, pageCount, totalCount, acc, requests =>
      let pageCount := pageCount + 1
      let requests := requests + 1
      match api offset with
      | .fail cors =>
          if cors then (acc, totalCount, requests)
          else fetchJobsLoop api fuel (offset + 50) pageCount totalCount acc requests
      | .ok records count =>
          let totalCount := if pageCount = 1 then some count else totalCount
          if records.isEmpty then (acc, totalCount, requests)
          else
            let acc := acc ++ records
            let offset := offset + 50
            if acc.length ≥ totalCount.getD 0 || records.length < 50 then
              (acc, totalCount, requests)
            else
              fetchJobsLoop api fuel offset pageCount totalCount acc requests

/-- `fetchJobs`: run the loop from a zero offset, then apply the final
trim-to-total step (`allJobs.splice(totalCount)` under the JS truthiness
guard).  Returns the records and the number of page requests issued. -/
def fetchJobs (api : Nat → PageOutcome) : List Nat × Nat :=
  let (acc, totalCount, requests) := fetchJobsLoop api 10 0 0 none [] 0
  let jobs :=
    match totalCount with
    | some tc => if tc ≠ 0 && acc.length > tc then acc.take tc else acc
    | none => acc
  (jobs, requests)

/-! ## Result discriminators and decidability helpers -/

def CreateResult.isConflict : CreateResult → Bool
  | .conflict _ => true
  | .ok _ => false

def RowResult.isOk : RowResult → Bool
  | .ok _ => true
  | .err _ => false

instance (s : Store) : Decidable (noDupActive s) := by
  unfold noDupActive
  exact List.instDecidablePairwise _

/-- A row with end_time still NULL, with the (job, employee) pair shared by
two distinct rows.  Rows with null end_time are what the duplicate query of
`createEntry` actually counts. -/
def nullPair (r1 r2 : Row) : Prop :=
  r1.end_time = none ∧ r2.end_time = none ∧
  r1.employee_code = r2.employee_code ∧ r1.job_no = r2.job_no

/-- At most one null-end_time row per (job, employee) pair. -/
def atMostOneNull (s : Store) : Prop :=
  s.rows.Pairwise fun r1 r2 => ¬ nullPair r1 r2

/-- The side conditions under which the store-level one-active-timer
invariant is provable: created entries carry already-trimmed identifiers
(the duplicate query compares stored values against trimmed input while the
INSERT stores the raw input), and a non-active back-fill carries an
end_time (a completed insert without one leaves a null end_time row that a
later resume can reactivate). -/
def wellFormedOp : Op → Prop
  | .create e _ =>
      jsTrim e.job_no = e.job_no ∧ jsTrim e.employee_code = e.employee_code ∧
      (isActiveTimer e = true ∨ e.end_time ≠ none)
  | _ => True

/-- Inductive invariant for claim C2: all stored identifiers are trimmed
and no (job, employee) pair has two null-end_time rows. -/
def storeInv (s : Store) : Prop :=
  (∀ r ∈ s.rows, jsTrim r.job_no = r.job_no ∧
      jsTrim r.employee_code = r.employee_code) ∧
  atMostOneNull s

/-! ## Concrete scenario inputs used by the claim theorems -/

/-- A paused entry: status paused, end_time still NULL. -/
def pausedRowC1 : Row :=
  { id := 0, job_no := "J1", job_name := "Job One", employee_code := "E1",
    employee_name := none, account_no := none, account_name := none,
    start_time := 100, end_time := none, total_seconds := some 60,
    comment := none, status := "paused", spire_status := "new",
    start_location := some "[]", end_location := some "[]",
    created_at := 100, updated_at := 200 }

def pausedStoreC1 : Store := { rows := [pausedRowC1], nextId := 1 }

/-- An active-status create request for the same (job, employee) pair. -/
def activeEntryC1 : NewEntry :=
  { job_no := "J1", job_name := "Job One", employee_code := "E1" }

/-- A create request whose job_no carries a trailing blank. -/
def wsEntryC2 : NewEntry :=
  { job_no := "J1 ", job_name := "Job One", employee_code := "E1" }

/-- A plain well-formed create request, for the C2 witness sequence. -/
def okEntryC2 : NewEntry :=
  { job_no := "J1", job_name := "Job One", employee_code := "E1" }

/-- A running entry for the stop witness. -/
def runRowC3 : Row :=
  { id := 7, job_no := "J2", job_name := "Job Two", employee_code := "E2",
    employee_name := some "Employee Two", account_no := none,
    account_name := none, start_time := 1000, end_time := none,
    total_seconds := none, comment := none, status := "active",
    spire_status := "new", start_location := some "[]",
    end_location := some "[]", created_at := 1000, updated_at := 1000 }

def storeC3 : Store := { rows := [runRowC3], nextId := 8 }

/-- An active entry owned by E1, about to be ended through the client end
flow. -/
def activeRowC5 : Row :=
  { id := 0, job_no := "J1", job_name := "Job One", employee_code := "E1",
    employee_name := none, account_no := none, account_name := none,
    start_time := 4000, end_time := none, total_seconds := some 0,
    comment := none, status := "active", spire_status := "new",
    start_location := some "[]", end_location := some "[]",
    created_at := 4000, updated_at := 4000 }

def storeC5 : Store := { rows := [activeRowC5], nextId := 1 }

/-- The terminal update issued by `updateTimer` for the end operation, in
the key order of the JS object: total_seconds, comment, status,
end_location, end_time. -/
def endPayloadC5 : List (Field × Value) :=
  [(.total_seconds, .int 300), (.comment, .str ""),
   (.status, .str "completed"), (.end_location, .null),
   (.end_time, .int 5000)]

/-- An already fully migrated time-entries schema for the C6 witness. -/
def teGoodSchema : Schema :=
  { tableExists := true, idIsUuid := true, columns := teFullColumns,
    indexes :=
      ["idx_time_entries_jobs_job_no", "idx_time_entries_jobs_status",
       "idx_time_entries_jobs_start_time", "idx_time_entries_jobs_spire_status",
       "idx_time_entries_jobs_employee_code"],
    uuidExt := true }

/-- An already fully migrated users schema for the C6 witness. -/
def userGoodSchema : Schema :=
  { tableExists := true, idIsUuid := true, columns := userFullColumns,
    indexes := ["idx_time_entries_users_emp_code", "idx_time_entries_users_verified"],
    uuidExt := true }

/-- Payload for the C7 witness: one whitelisted key, plus end_time and id,
which are outside the whitelist. -/
def framePayloadC7 : List (Field × Value) :=
  [(.comment, .str "adjusted"), (.end_time, .int 9999), (.id, .int 42)]

def frameRowC7 : Row :=
  { id := 3, job_no := "J3", job_name := "Job Three", employee_code := "E3",
    employee_name := none, account_no := none, account_name := none,
    start_time := 50, end_time := none, total_seconds := some 10,
    comment := none, status := "active", spire_status := "new",
    start_location := some "[]", end_location := some "[]",
    created_at := 50, updated_at := 60 }

def frameStoreC7 : Store := { rows := [frameRowC7], nextId := 4 }

/-- The row the C7 witness expects back from the update. -/
def frameUpdatedC7 : Row :=
  { frameRowC7 with comment := some "adjusted", updated_at := 70 }

/-- An unverified user holding correct credentials, for C8 and C10. -/
def unverifiedUser : UserRow :=
  { id := 1, emp_code := "E9", emp_name := some "Employee Nine",
    password := "digest-of-pw9", verified := false, favorites := "[]",
    created := 10, updated := 10 }

def dbC8 : UserDb := { users := [unverifiedUser], nextId := 2 }

/-- The digest function used by the concrete witnesses: any function works
for the theorems, which are proved for an arbitrary digest. -/
def demoHash : String → String := fun p => "digest-of-" ++ p

/-- The ERP jobs API of the C9 scenario: 125 records served 50/50/25 with
the reported total 125; any further page would be empty. -/
def api125 : Nat → PageOutcome := fun offset =>
  if offset = 0 then .ok (List.replicate 50 0) 125
  else if offset = 50 then .ok (List.replicate 50 1) 125
  else if offset = 100 then .ok (List.replicate 25 2) 125
  else .ok [] 125

/-- A manual back-fill request: status completed, same pair as the paused
row. -/
def completedEntryC1 : NewEntry :=
  { activeEntryC1 with status := some "completed", end_time := some 400,
                       total_seconds := some 100 }

/-- The row the C5 scenario expects after the terminal update: every
whitelisted field of the payload applied, updated_at touched, and end_time
untouched because it is not in the whitelist. -/
def c5UpdatedRow : Row :=
  { activeRowC5 with total_seconds := some 300, comment := some "",
                     status := "completed", end_location := none,
                     updated_at := 5000 }

instance : ∀ op, Decidable (wellFormedOp op) := fun op => by
  cases op <;> (unfold wellFormedOp; infer_instance)

/-- A well-formed start/pause/resume/stop sequence for the C2 witness. -/
def opsC2Witness : List Op :=
  [.create okEntryC2 0, .pause 0 60 60, .resume 0 240, .stop 0 none 360]

/-! ## Claim theorems -/

set_option maxRecDepth 4000 in
/-- C9: with page size 50 against a dataset the API reports as 125 records
(pages of 50, 50, 25), `fetchJobs` returns exactly 125 records and issues
exactly 3 page requests, never a 4th. -/
theorem c9_fetchJobs_pagination :
    (fetchJobs api125).1.length = 125 ∧ (fetchJobs api125).2 = 3 := by
  decide

/-- C5 (failing run): on an active entry, the client end-flow update (seen
at the store as status completed, final total_seconds, comment,
end_location, end_time) succeeds, but because end_time is not in the
whitelist the stored row keeps end_time NULL and is still returned by
getActiveEntries. -/
theorem c5_end_update_leaves_entry_active :
    (updateEntry storeC5 0 endPayloadC5 (some "E1") 5000).1 = .ok c5UpdatedRow ∧
    c5UpdatedRow.status = "completed" ∧
    c5UpdatedRow.end_time = none ∧
    getActiveEntries (updateEntry storeC5 0 endPayloadC5 (some "E1") 5000).2
      (some "E1") = [c5UpdatedRow] := by
  decide

/-- C1 counterexample: a paused row (status is paused, not active) for the
same (job, employee) pair makes `createEntry` reject an active create, so
the claimed equivalence with the existence of an active-status row fails at
this input. -/
theorem c1_counterexample :
    ¬ (((createEntry pausedStoreC1 activeEntryC1 300).1.isConflict = true) ↔
        ∃ r ∈ pausedStoreC1.rows,
          r.job_no = activeEntryC1.job_no ∧
          r.employee_code = activeEntryC1.employee_code ∧
          r.status = "active" ∧ r.end_time = none) := by
  decide

/-- C1 (amended): for an active-status (or status-omitted) entry,
`createEntry` returns the conflict error exactly when some row shares the
trimmed job_no and trimmed employee_code and has a NULL end_time, whatever
its status; a create with status completed always succeeds, even while an
active timer exists for the pair. -/
theorem c1_amended :
    (∀ (s : Store) (e : NewEntry) (now : Int),
        e.status = none ∨ e.status = some "active" →
        ((createEntry s e now).1.isConflict = true ↔
          ∃ r ∈ s.rows, r.job_no = jsTrim e.job_no ∧
            r.employee_code = jsTrim e.employee_code ∧ r.end_time = none)) ∧
    (∀ (s : Store) (e : NewEntry) (now : Int),
        e.status = some "completed" →
        (createEntry s e now).1 = .ok s.nextId) := by
  constructor
  · intro s e now h
    have ha : isActiveTimer e = true := by
      rcases h with h | h <;> simp [isActiveTimer, h]
    by_cases hd : dupExists s e = true
    · simp only [createEntry, ha, hd, Bool.and_self, if_true,
        CreateResult.isConflict, true_iff]
      simpa [dupExists, List.any_eq_true, Bool.and_eq_true, beq_iff_eq,
        and_assoc] using hd
    · simp only [createEntry, ha, Bool.true_and, hd, if_false,
        CreateResult.isConflict]
      constructor
      · intro hfalse; cases hfalse
      · intro hex
        exfalso
        apply hd
        simpa [dupExists, List.any_eq_true, Bool.and_eq_true, beq_iff_eq,
          and_assoc] using hex
  · intro s e now h
    have ha : isActiveTimer e = false := by
      simp [isActiveTimer, h]
    simp [createEntry, ha]

/-- C1 witness: the amended equivalence at the paused-row store, plus the
completed back-fill succeeding at the same store. -/
theorem c1_amended_witness :
    ((createEntry pausedStoreC1 activeEntryC1 300).1.isConflict = true) ∧
    (createEntry pausedStoreC1 completedEntryC1 300).1 = .ok 1 := by
  refine ⟨?_, ?_⟩
  · exact (c1_amended.1 pausedStoreC1 activeEntryC1 300 (Or.inl rfl)).mpr
      (by decide)
  · exact c1_amended.2 pausedStoreC1 completedEntryC1 300 rfl

/-- C2 counterexample: two serial creates with a trailing blank in job_no
both pass the duplicate check (which compares stored raw values against the
trimmed input), leaving two rows with status active, end_time NULL and the
same (job_no, employee_code). -/
theorem c2_counterexample :
    ¬ noDupActive (runOps [.create wsEntryC2 0, .create wsEntryC2 5]) := by
  decide

lemma stopMatches_iff (id : Nat) (emp : Option String) (r : Row)
    (hemp : emp ≠ some "") :
    stopMatches id emp r = true ↔
      r.id = id ∧ r.end_time = none ∧ ∀ e, emp = some e → r.employee_code = e := by
  cases emp with
  | none => simp [stopMatches, ownOk]
  | some e =>
      have he : (e == "") = false := by
        rw [beq_eq_false_iff_ne]
        intro h
        exact hemp (by rw [h])
      simp [stopMatches, ownOk, he, and_assoc]

/-- C3: `stopEntry` succeeds exactly when a row with the given id has a
NULL end_time and, when an employee code is supplied, is owned by it; on
success the returned row is the stored row with end_time now,
total_seconds the clamped elapsed whole seconds, status Completed and
updated_at now; on failure it reports the not-found-or-already-stopped
error and the store is unchanged. -/
theorem c3_stopEntry_spec (s : Store) (id : Nat) (emp : Option String)
    (now : Int) (hemp : emp ≠ some "") :
    ((stopEntry s id emp now).1.isOk = true ↔
      ∃ r ∈ s.rows, r.id = id ∧ r.end_time = none ∧
        ∀ e, emp = some e → r.employee_code = e) ∧
    (∀ r', (stopEntry s id emp now).1 = .ok r' →
      ∃ r ∈ s.rows, r' = stopRow now r ∧ r'.end_time = some now ∧
        r'.total_seconds = some (max 0 (now - r.start_time)) ∧
        r'.status = "Completed" ∧ r'.updated_at = now) ∧
    ((stopEntry s id emp now).1.isOk = false →
      (stopEntry s id emp now).1 = .err "Entry not found or already stopped" ∧
      (stopEntry s id emp now).2 = s) := by
  rcases hfind : s.rows.find? (stopMatches id emp) with _ | r
  · have hnone := List.find?_eq_none.mp hfind
    refine ⟨?_, ?_, ?_⟩
    · simp only [stopEntry, hfind, RowResult.isOk, Bool.false_eq_true, false_iff]
      rintro ⟨r, hr, h1, h2, h3⟩
      exact hnone r hr ((stopMatches_iff id emp r hemp).mpr ⟨h1, h2, h3⟩)
    · intro r' h
      simp [stopEntry, hfind] at h
    · intro _
      simp [stopEntry, hfind]
  · have hmem := List.mem_of_find?_eq_some hfind
    have hmatch := List.find?_some hfind
    refine ⟨?_, ?_, ?_⟩
    · simp only [stopEntry, hfind, RowResult.isOk, true_iff]
      exact ⟨r, hmem, (stopMatches_iff id emp r hemp).mp hmatch⟩
    · intro r' h
      simp only [stopEntry, hfind, RowResult.ok.injEq] at h
      exact ⟨r, hmem, h.symm, by simp [← h, stopRow]⟩
    · intro hfalse
      simp [stopEntry, hfind, RowResult.isOk] at hfalse

/-- C3 witness: stopping the running entry of the one-row store. -/
theorem c3_stopEntry_witness :
    ((stopEntry storeC3 7 (some "E2") 1120).1.isOk = true ↔
      ∃ r ∈ storeC3.rows, r.id = 7 ∧ r.end_time = none ∧
        ∀ e, (some "E2" : Option String) = some e → r.employee_code = e) ∧
    (∀ r', (stopEntry storeC3 7 (some "E2") 1120).1 = .ok r' →
      ∃ r ∈ storeC3.rows, r' = stopRow 1120 r ∧ r'.end_time = some 1120 ∧
        r'.total_seconds = some (max 0 (1120 - r.start_time)) ∧
        r'.status = "Completed" ∧ r'.updated_at = 1120) ∧
    ((stopEntry storeC3 7 (some "E2") 1120).1.isOk = false →
      (stopEntry storeC3 7 (some "E2") 1120).1 =
        .err "Entry not found or already stopped" ∧
      (stopEntry storeC3 7 (some "E2") 1120).2 = storeC3) :=
  c3_stopEntry_spec storeC3 7 (some "E2") 1120 (by decide)

/-- C6: on an already fully migrated schema, one `ensureTable` call (for
either table) returns the schema unchanged together with the success flag,
and hence any number of repeated calls changes nothing and never fails. -/
theorem c6_ensure_idempotent :
    (∀ t s, teSchemaCorrect t s → ensureTable t s = (s, true)) ∧
    (∀ t s, userSchemaCorrect t s → userEnsureTable t s = (s, true)) ∧
    (∀ t s n, teSchemaCorrect t s →
      (fun s => (ensureTable t s).1)^[n] s = s) ∧
    (∀ t s n, userSchemaCorrect t s →
      (fun s => (userEnsureTable t s).1)^[n] s = s) := by
  have hte : ∀ t s, teSchemaCorrect t s → ensureTable t s = (s, true) := by
    intro t s h
    obtain ⟨h1, h2, h3, hc, hi⟩ := h
    obtain ⟨te, iu, cols, idxs, ext⟩ := s
    simp only at h1 h2 h3
    subst h1; subst h2; subst h3
    have c1 := hc "spire_status" (by simp [teFullColumns])
    have c2 := hc "employee_code" (by simp [teFullColumns])
    have c3 := hc "employee_name" (by simp [teFullColumns])
    have c4 := hc "start_location" (by simp [teFullColumns])
    have c5 := hc "end_location" (by simp [teFullColumns])
    have c6 := hc "total_seconds" (by simp [teFullColumns])
    have c7 := hc "comment" (by simp [teFullColumns])
    have c8 := hc "account_no" (by simp [teFullColumns])
    have c9 := hc "account_name" (by simp [teFullColumns])
    have i1 := hi ("idx_" ++ t ++ "_job_no") (by simp)
    have i2 := hi ("idx_" ++ t ++ "_status") (by simp)
    have i3 := hi ("idx_" ++ t ++ "_start_time") (by simp)
    have i4 := hi ("idx_" ++ t ++ "_spire_status") (by simp)
    have i5 := hi ("idx_" ++ t ++ "_employee_code") (by simp)
    simp at c1 c2 c3 c4 c5 c6 c7 c8 c9 i1 i2 i3 i4 i5
    simp [ensureTable, addColIfMissing, addIndexIfMissing,
      c1, c2, c3, c4, c5, c6, c7, c8, c9, i1, i2, i3, i4, i5]
  have hus : ∀ t s, userSchemaCorrect t s → userEnsureTable t s = (s, true) := by
    intro t s h
    obtain ⟨h1, h2, h3, hc, hi⟩ := h
    obtain ⟨te, iu, cols, idxs, ext⟩ := s
    simp only at h1 h2 h3
    subst h1; subst h2; subst h3
    have c1 := hc "emp_name" (by simp [userFullColumns])
    have c2 := hc "favorites" (by simp [userFullColumns])
    have i1 := hi ("idx_" ++ t ++ "_emp_code") (by simp)
    have i2 := hi ("idx_" ++ t ++ "_verified") (by simp)
    simp at c1 c2 i1 i2
    simp [userEnsureTable, addColIfMissing, addIndexIfMissing, c1, c2, i1, i2]
  refine ⟨hte, hus, ?_, ?_⟩
  · intro t s n h
    exact Function.iterate_fixed (by simp [hte t s h]) n
  · intro t s n h
    exact Function.iterate_fixed (by simp [hus t s h]) n

/-- C6 witness: both ensure operations are no-ops on the concrete fully
migrated schemas (shown here for two repeated calls). -/
theorem c6_ensure_witness :
    ensureTable "time_entries_jobs" teGoodSchema = (teGoodSchema, true) ∧
    userEnsureTable "time_entries_users" userGoodSchema = (userGoodSchema, true) ∧
    (fun s => (ensureTable "time_entries_jobs" s).1)^[2] teGoodSchema =
      teGoodSchema :=
  ⟨c6_ensure_idempotent.1 "time_entries_jobs" teGoodSchema (by decide),
   c6_ensure_idempotent.2.1 "time_entries_users" userGoodSchema (by decide),
   c6_ensure_idempotent.2.2.1 "time_entries_jobs" teGoodSchema 2 (by decide)⟩

lemma updateEntry_eq_empty (s : Store) (id : Nat) (us : List (Field × Value))
    (emp : Option String) (now : Int)
    (h : (us.filter fun kv => allowedFields.contains kv.1).isEmpty = true) :
    updateEntry s id us emp now = (.err "No valid fields to update", s) := by
  simp only [updateEntry, h]
  rw [if_pos trivial]

lemma updateEntry_eq_notFound (s : Store) (id : Nat)
    (us : List (Field × Value)) (emp : Option String) (now : Int)
    (h : (us.filter fun kv => allowedFields.contains kv.1).isEmpty = false)
    (hfind : s.rows.find? (updMatches id emp) = none) :
    updateEntry s id us emp now = (.err "Entry not found", s) := by
  simp only [updateEntry, h]
  rw [if_neg Bool.false_ne_true, hfind]

lemma updateEntry_eq_found (s : Store) (id : Nat) (us : List (Field × Value))
    (emp : Option String) (now : Int) (r : Row)
    (h : (us.filter fun kv => allowedFields.contains kv.1).isEmpty = false)
    (hfind : s.rows.find? (updMatches id emp) = some r) :
    updateEntry s id us emp now =
      (.ok { applyUpdates r (us.filter fun kv => allowedFields.contains kv.1)
               with updated_at := now },
       { s with rows := s.rows.map fun q =>
           if updMatches id emp q then
             { applyUpdates q (us.filter fun kv => allowedFields.contains kv.1)
                 with updated_at := now }
           else q }) := by
  simp only [updateEntry, h]
  rw [if_neg Bool.false_ne_true, hfind]

lemma setField_frame (r : Row) (f : Field) (v : Value)
    (hf : f ∈ allowedFields) :
    (setField r f v).id = r.id ∧ (setField r f v).end_time = r.end_time ∧
      (setField r f v).created_at = r.created_at := by
  cases f <;> cases v <;> simp [setField, allowedFields] at hf ⊢

lemma applyUpdates_frame (us : List (Field × Value)) (r : Row)
    (h : ∀ kv ∈ us, kv.1 ∈ allowedFields) :
    (applyUpdates r us).id = r.id ∧ (applyUpdates r us).end_time = r.end_time ∧
      (applyUpdates r us).created_at = r.created_at := by
  induction us generalizing r with
  | nil => exact ⟨rfl, rfl, rfl⟩
  | cons kv rest ih =>
      have h1 := setField_frame r kv.1 kv.2 (h kv (by simp))
      have h2 := ih (setField r kv.1 kv.2) (fun x hx => h x (by simp [hx]))
      simp only [applyUpdates, List.foldl_cons] at *
      exact ⟨h2.1.trans h1.1, h2.2.1.trans h1.2.1, h2.2.2.trans h1.2.2⟩

/-- C7: `updateEntry` ignores payload keys outside the whitelist (the call
equals the call on the filtered payload); every row of the resulting store
keeps its id, end_time and created_at, and rows not targeted by the WHERE
clause are completely unchanged; the returned row likewise keeps the id,
end_time and created_at of the targeted row. -/
theorem c7_updateEntry_frame (s : Store) (id : Nat)
    (us : List (Field × Value)) (emp : Option String) (now : Int) :
    updateEntry s id us emp now =
      updateEntry s id (us.filter fun kv => allowedFields.contains kv.1)
        emp now ∧
    List.Forall₂ (fun q q' : Row =>
        q'.id = q.id ∧ q'.end_time = q.end_time ∧
          q'.created_at = q.created_at ∧
          (updMatches id emp q = false → q' = q))
      s.rows (updateEntry s id us emp now).2.rows ∧
    (∀ r', (updateEntry s id us emp now).1 = .ok r' →
      ∃ r ∈ s.rows, updMatches id emp r = true ∧
        r'.id = r.id ∧ r'.end_time = r.end_time ∧
        r'.created_at = r.created_at) := by
  have hmem : ∀ kv ∈ us.filter (fun kv => allowedFields.contains kv.1),
      kv.1 ∈ allowedFields := by
    intro kv hkv
    have := List.of_mem_filter hkv
    simpa using this
  refine ⟨?_, ?_, ?_⟩
  · simp only [updateEntry, List.filter_filter, Bool.and_self]
  · by_cases hemp : (us.filter fun kv => allowedFields.contains kv.1).isEmpty = true
    · rw [updateEntry_eq_empty s id us emp now hemp]
      exact List.forall₂_same.mpr fun q _ => ⟨rfl, rfl, rfl, fun _ => rfl⟩
    · have hemp2 : (us.filter fun kv => allowedFields.contains kv.1).isEmpty = false := by
        rwa [Bool.not_eq_true] at hemp
      rcases hfind : s.rows.find? (updMatches id emp) with _ | r
      · rw [updateEntry_eq_notFound s id us emp now hemp2 hfind]
        exact List.forall₂_same.mpr fun q _ => ⟨rfl, rfl, rfl, fun _ => rfl⟩
      · rw [updateEntry_eq_found s id us emp now r hemp2 hfind]
        rw [List.forall₂_map_right_iff]
        refine List.forall₂_same.mpr fun q _ => ?_
        by_cases hq : updMatches id emp q = true
        · have hfr := applyUpdates_frame
            (us.filter fun kv => allowedFields.contains kv.1) q hmem
          simp only [hq, if_true]
          exact ⟨hfr.1, hfr.2.1, hfr.2.2, fun hfalse => by simp [hq] at hfalse⟩
        · simp only [Bool.not_eq_true] at hq
          simp [hq]
  · intro r' h
    by_cases hemp : (us.filter fun kv => allowedFields.contains kv.1).isEmpty = true
    · rw [updateEntry_eq_empty s id us emp now hemp] at h
      exact absurd h (by simp)
    · have hemp2 : (us.filter fun kv => allowedFields.contains kv.1).isEmpty = false := by
        rwa [Bool.not_eq_true] at hemp
      rcases hfind : s.rows.find? (updMatches id emp) with _ | r
      · rw [updateEntry_eq_notFound s id us emp now hemp2 hfind] at h
        exact absurd h (by simp)
      · rw [updateEntry_eq_found s id us emp now r hemp2 hfind] at h
        simp only [RowResult.ok.injEq] at h
        have hfr := applyUpdates_frame
          (us.filter fun kv => allowedFields.contains kv.1) r hmem
        refine ⟨r, List.mem_of_find?_eq_some hfind, List.find?_some hfind,
          ?_, ?_, ?_⟩
        · rw [← h]; exact hfr.1
        · rw [← h]; exact hfr.2.1
        · rw [← h]; exact hfr.2.2

/-- C7 witness: a payload carrying comment (whitelisted) together with
end_time and id (not whitelisted) updates only the comment and updated_at
of the targeted row. -/
theorem c7_updateEntry_frame_witness :
    (updateEntry frameStoreC7 3 framePayloadC7 none 70).1 = .ok frameUpdatedC7 ∧
    ∃ r ∈ frameStoreC7.rows, updMatches 3 none r = true ∧
      frameUpdatedC7.id = r.id ∧ frameUpdatedC7.end_time = r.end_time ∧
      frameUpdatedC7.created_at = r.created_at :=
  ⟨by decide,
   (c7_updateEntry_frame frameStoreC7 3 framePayloadC7 none 70).2.2
     frameUpdatedC7 (by decide)⟩

/-- C8: when the submitted credentials match a stored user whose verified
flag is false, the login flow ends in the dedicated Account-not-verified
failure: the server answers 200 (not a 401) with a token, but the client
refuses the session, stores no token, reports the distinct error text and
none of the 401 machine codes. -/
theorem c8_login_unverified (hash : String → String) (db : UserDb)
    (emp pw : String) (u : UserRow)
    (hemp : emp ≠ "") (hpw : pw ≠ "")
    (hfind : findUser db (jsTrim emp) = some u)
    (hpass : hash pw = u.password)
    (hver : u.verified = false) :
    (loginFlow hash db emp pw).1.success = false ∧
    (loginFlow hash db emp pw).1.error = some "Account not verified" ∧
    (loginFlow hash db emp pw).1.code = none ∧
    (serverLogin hash db emp pw).status = 200 ∧
    (loginFlow hash db emp pw).2.authToken = none ∧
    (loginFlow hash db emp pw).2.isAuthenticated = false := by
  have hne : (emp == "") = false := by
    rw [beq_eq_false_iff_ne]; exact hemp
  have hnp : (pw == "") = false := by
    rw [beq_eq_false_iff_ne]; exact hpw
  have hsrv : serverLogin hash db emp pw =
      { status := 200, success := true,
        token := some ("jwt." ++ jsTrim emp),
        user := some { id := some u.id, emp_code := some u.emp_code,
                       emp_name := u.emp_name, verified := some u.verified,
                       created := some u.created } } := by
    simp only [serverLogin, hne, hnp, Bool.or_self, Bool.false_eq_true,
      if_false, checkUserExists, hfind, verifyPasswordStore, hpass,
      beq_self_eq_true, if_true, stripPassword, projWithPassword, projPublic]
  simp [loginFlow, clientLogin, hsrv, hver]

/-- C8 witness: the unverified demo user with the correct password. -/
theorem c8_login_unverified_witness :
    (loginFlow demoHash dbC8 "E9" "pw9").1.success = false ∧
    (loginFlow demoHash dbC8 "E9" "pw9").1.error = some "Account not verified" ∧
    (loginFlow demoHash dbC8 "E9" "pw9").1.code = none ∧
    (serverLogin demoHash dbC8 "E9" "pw9").status = 200 ∧
    (loginFlow demoHash dbC8 "E9" "pw9").2.authToken = none ∧
    (loginFlow demoHash dbC8 "E9" "pw9").2.isAuthenticated = false :=
  c8_login_unverified demoHash dbC8 "E9" "pw9" unverifiedUser
    (by decide) (by decide) (by decide) (by decide) (by decide)

/-- C10: none of createUser, getUserByEmpcode, checkUserExists,
verifyPassword, verifyUserCredentials, updatePassword and getAllUsers ever
returns a user object carrying the stored password digest, for any digest
function, database and input, including a successful password check. -/
theorem c10_no_password_in_results :
    (∀ hash db ec en pw now u,
        (createUser hash db ec en pw now).1 = .ok u → u.password = none) ∧
    (∀ db ec u, getUserByEmpcode db ec = .ok u → u.password = none) ∧
    (∀ db ec u, checkUserExists db ec = .ok u → u.password = none) ∧
    (∀ hash db ec pw u,
        verifyPasswordStore hash db ec pw = .ok u → u.password = none) ∧
    (∀ hash db ec pw u,
        verifyUserCredentials hash db ec pw = .ok u → u.password = none) ∧
    (∀ hash db ec pw now u,
        (updatePassword hash db ec pw now).1 = .ok u → u.password = none) ∧
    (∀ db limit u, u ∈ getAllUsers db limit → u.password = none) := by
  refine ⟨?_, ?_, ?_, ?_, ?_, ?_, ?_⟩
  · intro hash db ec en pw now u h
    by_cases h1 : (ec == "" || pw == "") = true
    · simp [createUser, h1] at h
    · by_cases h2 : db.users.any (fun r => r.emp_code == ec) = true
      · simp [createUser, h1, h2] at h
      · simp only [createUser, h1, h2, Bool.false_eq_true, if_false,
          RowResult.ok.injEq, CreateResult.ok.injEq, UserResult.ok.injEq] at h
        simp [← h, projPublic]
  · intro db ec u h
    rcases hf : findUser db ec with _ | r
    · simp [getUserByEmpcode, hf] at h
    · simp only [getUserByEmpcode, hf, UserResult.ok.injEq] at h
      simp [← h, projPublic]
  · intro db ec u h
    rcases hf : findUser db ec with _ | r
    · simp [checkUserExists, hf] at h
    · simp only [checkUserExists, hf, UserResult.ok.injEq] at h
      simp [← h, projPublic]
  · intro hash db ec pw u h
    rcases hf : findUser db ec with _ | r
    · simp [verifyPasswordStore, hf] at h
    · simp only [verifyPasswordStore, hf] at h
      by_cases hp : (hash pw == r.password) = true
      · simp only [hp, if_true, UserResult.ok.injEq] at h
        simp [← h, stripPassword]
      · simp [hp] at h
  · intro hash db ec pw u h
    rcases hf : findUser db ec with _ | r
    · simp [verifyUserCredentials, hf] at h
    · simp only [verifyUserCredentials, hf] at h
      by_cases hp : (hash pw == r.password) = true
      · simp only [hp, if_true, UserResult.ok.injEq] at h
        simp [← h, stripPassword]
      · simp [hp] at h
  · intro hash db ec pw now u h
    rcases hf : findUser db ec with _ | r
    · simp [updatePassword, hf] at h
    · simp only [updatePassword, hf, UserResult.ok.injEq] at h
      simp [← h, projUpdatePassword]
  · intro db limit u h
    simp only [getAllUsers, List.mem_map] at h
    obtain ⟨r, _, hru⟩ := h
    simp [← hru, projPublic]

/-- C10 witness: a successful password verification for the demo user
returns the user object with the password field absent. -/
theorem c10_no_password_witness :
    verifyPasswordStore demoHash dbC8 "E9" "pw9" =
      .ok (stripPassword (projWithPassword unverifiedUser)) ∧
    (stripPassword (projWithPassword unverifiedUser)).password = none :=
  ⟨by decide,
   c10_no_password_in_results.2.2.2.1 demoHash dbC8 "E9" "pw9"
     (stripPassword (projWithPassword unverifiedUser)) (by decide)⟩

lemma timer_roundtrip_aux : ∀ (cycles : List (Nat × Nat)) (ts t0 t3 : Nat),
    Chrono t0 cycles t3 →
    elapsedMs (runCycles ⟨ts, t0⟩ cycles) t3 ≤
      ts * 1000 + trueActiveMs t0 cycles t3 ∧
    ts * 1000 + trueActiveMs t0 cycles t3 <
      elapsedMs (runCycles ⟨ts, t0⟩ cycles) t3 + 1000 * cycles.length + 1
  | [], ts, t0, t3, h => by
      simp only [runCycles, trueActiveMs, elapsedMs, List.length_nil]
      omega
  | (p, r) :: rest, ts, t0, t3, h => by
      obtain ⟨h1, h2, h3⟩ := h
      have ih := timer_roundtrip_aux rest ((ts * 1000 + (p - t0)) / 1000) r t3 h3
      simp only [runCycles, resumeTimer, pauseTimer, elapsedMs] at ih ⊢
      simp only [trueActiveMs, List.length_cons]
      have hd1 : ts * 1000 + (p - t0) - (ts * 1000 + (p - t0)) % 1000 =
          (ts * 1000 + (p - t0)) / 1000 * 1000 := by
        omega
      have hd2 : (ts * 1000 + (p - t0)) % 1000 < 1000 :=
        Nat.mod_lt _ (by omega)
      have hd3 : (ts * 1000 + (p - t0)) / 1000 * 1000 ≤ ts * 1000 + (p - t0) :=
        Nat.div_mul_le_self _ _
      omega

/-- C4: starting a timer at t0 and running any chronological list of
(pause, resume) cycles, the reconstructed display value
total_seconds * 1000 + (t3 - start_time) never exceeds the true wall-clock
running time, and undershoots it by less than one second per pause (the
sub-second part truncated by Math.floor at each pause); in particular it
is exact within whole-second rounding for any number of cycles. -/
theorem c4_timer_roundtrip (t0 t3 : Nat) (cycles : List (Nat × Nat))
    (h : Chrono t0 cycles t3) :
    elapsedMs (runCycles ⟨0, t0⟩ cycles) t3 ≤ trueActiveMs t0 cycles t3 ∧
    trueActiveMs t0 cycles t3 <
      elapsedMs (runCycles ⟨0, t0⟩ cycles) t3 + 1000 * cycles.length + 1 := by
  have := timer_roundtrip_aux cycles 0 t0 t3 h
  simpa using this

lemma storeInv_map (g : Row → Row)
    (hjob : ∀ r, (g r).job_no = r.job_no)
    (hemp : ∀ r, (g r).employee_code = r.employee_code)
    (hnull : ∀ r, (g r).end_time = none → r.end_time = none)
    (s : Store) (h : storeInv s) :
    storeInv { s with rows := s.rows.map g } := by
  obtain ⟨ht, hp⟩ := h
  constructor
  · intro r' hr'
    simp only [List.mem_map] at hr'
    obtain ⟨r, hr, rfl⟩ := hr'
    have hh := ht r hr
    rw [hjob, hemp]
    exact hh
  · refine List.Pairwise.map g ?_ hp
    intro a b hab hbad
    apply hab
    obtain ⟨n1, n2, e1, e2⟩ := hbad
    refine ⟨hnull a n1, hnull b n2, ?_, ?_⟩
    · rw [hemp, hemp] at e1; exact e1
    · rw [hjob, hjob] at e2; exact e2

lemma storeInv_create (s : Store) (e : NewEntry) (t : Int)
    (hj : jsTrim e.job_no = e.job_no)
    (he : jsTrim e.employee_code = e.employee_code)
    (hae : isActiveTimer e = true ∨ e.end_time ≠ none)
    (h : storeInv s) : storeInv (createEntry s e t).2 := by
  obtain ⟨ht, hp⟩ := h
  by_cases hc : (isActiveTimer e && dupExists s e) = true
  · simp only [createEntry, hc, if_true]
    exact ⟨ht, hp⟩
  · have hc2 : (isActiveTimer e && dupExists s e) = false := by
      rwa [Bool.not_eq_true] at hc
    simp only [createEntry, hc2, Bool.false_eq_true, if_false]
    constructor
    · intro r hr
      simp only [List.mem_append, List.mem_singleton] at hr
      rcases hr with hr | rfl
      · exact ht r hr
      · exact ⟨by simpa [insertedRow] using hj, by simpa [insertedRow] using he⟩
    · unfold atMostOneNull
      rw [List.pairwise_append]
      refine ⟨hp, List.pairwise_singleton _ _, ?_⟩
      intro a ha b hb
      simp only [List.mem_singleton] at hb
      subst hb
      intro hbad
      obtain ⟨n1, n2, e1, e2⟩ := hbad
      simp only [insertedRow] at n2 e1 e2
      have hact : isActiveTimer e = true := by
        rcases hae with hh | hh
        · exact hh
        · exact absurd n2 hh
      have hdup : dupExists s e = false := by
        cases hd : dupExists s e
        · rfl
        · rw [hact, hd] at hc2; cases hc2
      have hdup2 : dupExists s e = true := by
        unfold dupExists
        rw [List.any_eq_true]
        exact ⟨a, ha, by simp [hj, he, e1, e2, n1]⟩
      rw [hdup2] at hdup
      cases hdup

lemma storeInv_stop (s : Store) (id : Nat) (emp : Option String) (t : Int)
    (h : storeInv s) : storeInv (stopEntry s id emp t).2 := by
  rcases hf : s.rows.find? (stopMatches id emp) with _ | r
  · simpa [stopEntry, hf] using h
  · simp only [stopEntry, hf]
    refine storeInv_map _ ?_ ?_ ?_ s h
    · intro q
      by_cases hq : stopMatches id emp q = true <;> simp [hq, stopRow]
    · intro q
      by_cases hq : stopMatches id emp q = true <;> simp [hq, stopRow]
    · intro q
      by_cases hq : stopMatches id emp q = true <;> simp [hq, stopRow]

lemma setField_keeps (r : Row) (f : Field) (v : Value)
    (h1 : f ≠ .job_no) (h2 : f ≠ .employee_code) (h3 : f ≠ .end_time) :
    (setField r f v).job_no = r.job_no ∧
    (setField r f v).employee_code = r.employee_code ∧
    (setField r f v).end_time = r.end_time := by
  cases f <;>
    first
      | (exact absurd rfl h1)
      | (exact absurd rfl h2)
      | (exact absurd rfl h3)
      | (cases v <;> simp [setField])

lemma applyUpdates_keeps (us : List (Field × Value)) (r : Row)
    (h : ∀ kv ∈ us, kv.1 ≠ .job_no ∧ kv.1 ≠ .employee_code ∧ kv.1 ≠ .end_time) :
    (applyUpdates r us).job_no = r.job_no ∧
    (applyUpdates r us).employee_code = r.employee_code ∧
    (applyUpdates r us).end_time = r.end_time := by
  induction us generalizing r with
  | nil => exact ⟨rfl, rfl, rfl⟩
  | cons kv rest ih =>
      obtain ⟨k1, k2, k3⟩ := h kv (by simp)
      have h1 := setField_keeps r kv.1 kv.2 k1 k2 k3
      have h2 := ih (setField r kv.1 kv.2) (fun x hx => h x (by simp [hx]))
      simp only [applyUpdates, List.foldl_cons] at *
      exact ⟨h2.1.trans h1.1, h2.2.1.trans h1.2.1, h2.2.2.trans h1.2.2⟩

lemma storeInv_updateEntry (s : Store) (id : Nat) (us : List (Field × Value))
    (emp : Option String) (t : Int)
    (hkeys : ∀ kv ∈ us, kv.1 ≠ .job_no ∧ kv.1 ≠ .employee_code ∧ kv.1 ≠ .end_time)
    (h : storeInv s) : storeInv (updateEntry s id us emp t).2 := by
  by_cases hemp2 : (us.filter fun kv => allowedFields.contains kv.1).isEmpty = true
  · rw [updateEntry_eq_empty s id us emp t hemp2]
    exact h
  · have hne : (us.filter fun kv => allowedFields.contains kv.1).isEmpty = false := by
      rwa [Bool.not_eq_true] at hemp2
    rcases hf : s.rows.find? (updMatches id emp) with _ | r
    · rw [updateEntry_eq_notFound s id us emp t hne hf]
      exact h
    · rw [updateEntry_eq_found s id us emp t r hne hf]
      have hkf : ∀ kv ∈ us.filter (fun kv => allowedFields.contains kv.1),
          kv.1 ≠ Field.job_no ∧ kv.1 ≠ Field.employee_code ∧
            kv.1 ≠ Field.end_time :=
        fun kv hkv => hkeys kv (List.mem_of_mem_filter hkv)
      refine storeInv_map _ ?_ ?_ ?_ s h
      · intro q
        by_cases hq : updMatches id emp q = true
        · simp only [hq, if_true]
          exact (applyUpdates_keeps _ q hkf).1
        · have hq2 : updMatches id emp q = false := by
            rwa [Bool.not_eq_true] at hq
          simp only [hq2, Bool.false_eq_true, if_false]
      · intro q
        by_cases hq : updMatches id emp q = true
        · simp only [hq, if_true]
          exact (applyUpdates_keeps _ q hkf).2.1
        · have hq2 : updMatches id emp q = false := by
            rwa [Bool.not_eq_true] at hq
          simp only [hq2, Bool.false_eq_true, if_false]
      · intro q
        by_cases hq : updMatches id emp q = true
        · simp only [hq, if_true]
          intro hn
          rw [← (applyUpdates_keeps _ q hkf).2.2]
          exact hn
        · have hq2 : updMatches id emp q = false := by
            rwa [Bool.not_eq_true] at hq
          simp only [hq2, Bool.false_eq_true, if_false]
          exact fun hn => hn

lemma storeInv_applyOp (s : Store) (op : Op) (hwf : wellFormedOp op)
    (h : storeInv s) : storeInv (applyOp s op) := by
  cases op with
  | create e t =>
      obtain ⟨h1, h2, h3⟩ := hwf
      exact storeInv_create s e t h1 h2 h3 h
  | stop id emp t => exact storeInv_stop s id emp t h
  | pause id secs t =>
      refine storeInv_updateEntry s id _ none t ?_ h
      intro kv hkv
      simp only [List.mem_cons, List.not_mem_nil, or_false] at hkv
      rcases hkv with rfl | rfl | rfl <;> exact ⟨by simp, by simp, by simp⟩
  | resume id t =>
      refine storeInv_updateEntry s id _ none t ?_ h
      intro kv hkv
      simp only [List.mem_cons, List.not_mem_nil, or_false] at hkv
      rcases hkv with rfl | rfl <;> exact ⟨by simp, by simp, by simp⟩

/-- C2 (amended): starting from the empty store, any serial sequence of
create, stop, pause and resume operations preserves the one-active-timer
invariant, provided every created entry carries already-trimmed job_no and
employee_code and every non-active (back-fill) create carries an end_time.
Without those side conditions the invariant is violable (see the
counterexample): the duplicate check trims its inputs while the INSERT
stores them raw, and a completed create without end_time leaves a NULL
end_time row that resume can reactivate. -/
theorem c2_amended (ops : List Op) (h : ∀ op ∈ ops, wellFormedOp op) :
    noDupActive (runOps ops) := by
  have hrun : ∀ (l : List Op) (s : Store), storeInv s →
      (∀ op ∈ l, wellFormedOp op) → storeInv (l.foldl applyOp s) := by
    intro l
    induction l with
    | nil => intro s hs _; exact hs
    | cons op rest ih =>
        intro s hs hl
        exact ih _ (storeInv_applyOp s op (hl op (by simp)) hs)
          (fun x hx => hl x (by simp [hx]))
  have hinv := hrun ops emptyStore
    ⟨by simp [emptyStore], List.Pairwise.nil⟩ h
  exact hinv.2.imp fun hn hd => hn ⟨hd.2.1, hd.2.2.2.1, hd.2.2.2.2⟩

/-- C2 witness: a well-formed start, pause, resume, stop sequence keeps
the invariant. -/
theorem c2_amended_witness : noDupActive (runOps opsC2Witness) :=
  c2_amended opsC2Witness (by decide)

/-- C4 witness: the example of the specification, in milliseconds from
10:00:00 = 0 — pause at 10:01:00, resume at 10:04:00, read at 10:06:00 —
where the reconstruction is exactly the true 180 accumulated seconds. -/
theorem c4_timer_roundtrip_witness :
    (elapsedMs (runCycles ⟨0, 0⟩ [(60000, 240000)]) 360000 ≤
      trueActiveMs 0 [(60000, 240000)] 360000 ∧
     trueActiveMs 0 [(60000, 240000)] 360000 <
      elapsedMs (runCycles ⟨0, 0⟩ [(60000, 240000)]) 360000 +
        1000 * ([(60000, 240000)] : List (Nat × Nat)).length + 1) ∧
    elapsedMs (runCycles ⟨0, 0⟩ [(60000, 240000)]) 360000 = 180000 ∧
    trueActiveMs 0 [(60000, 240000)] 360000 = 180000 :=
  ⟨c4_timer_roundtrip 0 360000 [(60000, 240000)] (by decide),
   by decide, by decide⟩

end TimeTracking
